import Mathlib

/-!
Verification of the go-battleye BattlEye RCON client library.

This file gives a shallow embedding of the library's pure core — the packet
codec (`packet.bytes` / `parseResponse`), the multi-packet fragment
reassembler (`fragmentedResponse`), the receiver's command-response handler
(`handleCommandResponse`) with its sequence counter, the configuration
options applied by `NewClient`, and the `Close` lifecycle — and proves the
specification claims about them.

Bytes are modelled as natural numbers (values below 256 in every real
datagram); Go strings are modelled as byte lists.  Go runtime panics
(index out of range on a slice, method call on a nil interface) are made
explicit with a `panic` result constructor, so that safety claims can be
settled.
-/

set_option maxRecDepth 100000

namespace BattlEye

/-- Error values of the library (var block of the errors file). -/
inductive BEError where
  | invalidMessageBufferSize
  | invalidPacketSize
  | invalidHeader
  | invalidChecksum
  | invalidEndOfHeader
  | unknownPacketType
  | invalidLoginResponse
  | nilOption
  | loginFailed
  | timeout
deriving DecidableEq, Repr

/-! ## CRC32 (IEEE), as `hash/crc32.ChecksumIEEE` computes it -/

/-- One bit step of the reflected CRC32 algorithm with the IEEE
polynomial 0xEDB88320. -/
def crc32Bit (crc : Nat) : Nat :=
  if crc % 2 = 1 then (crc >>> 1) ^^^ 0xEDB88320 else crc >>> 1

/-- Process one input byte: xor it into the low bits of the running crc
(the `% 256` records that the Go input is a byte) and run eight bit steps. -/
def crc32Update (crc b : Nat) : Nat :=
  crc32Bit^[8] (crc ^^^ (b % 256))

/-- CRC32 checksum with initial value and final xor 0xFFFFFFFF,
i.e. `crc32.ChecksumIEEE` from the Go standard library. -/
def crc32 (data : List Nat) : Nat :=
  (data.foldl crc32Update 0xFFFFFFFF) ^^^ 0xFFFFFFFF

/-! ## Little-endian 32-bit encoding (`encoding/binary.LittleEndian`) -/

/-- The four bytes `binary.LittleEndian.PutUint32` writes for `v`. -/
def leBytes (v : Nat) : List Nat :=
  [v % 256, (v >>> 8) % 256, (v >>> 16) % 256, (v >>> 24) % 256]

/-- The value `binary.LittleEndian.Uint32` reads from the first four bytes. -/
def leUint32 (l : List Nat) : Nat :=
  l.getD 0 0 + l.getD 1 0 * 256 + l.getD 2 0 * 65536 + l.getD 3 0 * 16777216

/-! ## Packet encoding (packet.go) -/

/-- A BattlEye packet as built by the client: `message`, `payloadType`
(0 = login, 1 = command, 2 = server message) and `sequenceNumber`. -/
structure packet where
  message : List Nat
  payloadType : Nat
  sequenceNumber : Nat
deriving DecidableEq, Repr

/-- `newLoginPacket` — a loginType packet carrying the password. -/
def newLoginPacket (password : List Nat) : packet :=
  ⟨password, 0, 0⟩

/-- `newCommandPacket` — a commandType packet carrying command and sequence. -/
def newCommandPacket (command : List Nat) (sequence : Nat) : packet :=
  ⟨command, 1, sequence⟩

/-- `newServerMessageAcknowledgePacket` — a serverMessageType packet
carrying only the sequence number. -/
def newServerMessageAcknowledgePacket (sequence : Nat) : packet :=
  ⟨[], 2, sequence⟩

/-- `packet.payload`: 0xFF, the type byte, then the type specific body;
unknown payload types fail with ErrUnknownPacketType. -/
def packet.payload (p : packet) : Except BEError (List Nat) :=
  match p.payloadType with
  | 0 => .ok (0xFF :: 0 :: p.message)
  | 1 => .ok (0xFF :: 1 :: p.sequenceNumber :: p.message)
  | 2 => .ok [0xFF, 2, p.sequenceNumber]
  | _ => .error .unknownPacketType

/-- `packet.header`: the literal 0x42 0x45 followed by the little-endian
CRC32 of the payload. -/
def packet.header (payload : List Nat) : List Nat :=
  0x42 :: 0x45 :: leBytes (crc32 payload)

/-- `packet.bytes`: header then payload. -/
def packet.bytes (p : packet) : Except BEError (List Nat) :=
  p.payload.map fun pl => packet.header pl ++ pl

/-! ## Packet decoding (parser.go) -/

/-- Decoded `commandResponse` fields. -/
structure commandResponse where
  msg : List Nat
  seq : Nat
  multiSize : Nat
  multiIndex : Nat
  multi : Bool
deriving DecidableEq, Repr

/-- Decoded `serverMessage` fields. -/
structure serverMessage where
  seq : Nat
  msg : List Nat
deriving DecidableEq, Repr

/-- The three decoded value shapes `parseResponse` can return
(Go returns them through an `interface\x7b\x7d` value). -/
inductive Response where
  | login (success : Bool)
  | command (cr : commandResponse)
  | server (sm : serverMessage)
deriving DecidableEq, Repr

/-- Result of a decode: a decoded value, a decode error, or a Go runtime
panic (slice index out of range). -/
inductive ParseResult where
  | ok (r : Response)
  | err (e : BEError)
  | panic
deriving DecidableEq, Repr

/-- `loginResponse`: switch on the first body byte; 0 = failed,
1 = success, anything else ErrInvalidLoginResponse.  Reading `raw[0]` of
an empty slice would panic (unreachable from `parseResponse`). -/
def loginResponse : List Nat → ParseResult
  | [] => .panic
  | b :: _ =>
    if b = 0 then .ok (.login false)
    else if b = 1 then .ok (.login true)
    else .err .invalidLoginResponse

/-- `newCommandResponse`: first byte is the sequence; if a further byte
follows and equals `multiPacketType` (0x00) the next two bytes are the
multi-packet size and index and the rest is the fragment body — reading
those two bytes panics when the body is too short; otherwise the rest is
the message. -/
def newCommandResponse : List Nat → ParseResult
  | [] => .panic
  | [seq] => .ok (.command ⟨[], seq, 0, 0, false⟩)
  | seq :: m0 :: rest =>
    if m0 = 0 then
      match rest with
      | sz :: idx :: body => .ok (.command ⟨body, seq, sz, idx, true⟩)
      | _ => .panic
    else .ok (.command ⟨m0 :: rest, seq, 0, 0, false⟩)

/-- `newServerMessage`: sequence byte then message bytes. -/
def newServerMessage : List Nat → ParseResult
  | [] => .panic
  | seq :: rest => .ok (.server ⟨seq, rest⟩)

/-- `parseResponse`: the five validation checks in source order, then
dispatch on the payload type byte. -/
def parseResponse (raw : List Nat) : ParseResult :=
  if raw.length < 9 then .err .invalidPacketSize
  else if ¬(raw.getD 0 0 = 0x42 ∧ raw.getD 1 0 = 0x45) then .err .invalidHeader
  else if raw.getD 6 0 ≠ 0xFF then .err .invalidEndOfHeader
  else if crc32 (raw.drop 6) ≠ leUint32 (raw.drop 2) then .err .invalidChecksum
  else
    match raw.getD 7 0 with
    | 0 => loginResponse (raw.drop 8)
    | 1 => newCommandResponse (raw.drop 8)
    | 2 => newServerMessage (raw.drop 8)
    | _ => .err .unknownPacketType

/-! ## Fragment reassembly (parser.go) -/

/-- `fragmentedResponse`: the set of still-expected part indices
(Go `map[byte]struct\x7b\x7d`) and the dense slice of part bodies. -/
structure fragmentedResponse where
  expected : Finset Nat
  parts : List (List Nat)
deriving DecidableEq

/-- `newFragmentedResponse`: expect indices `0 .. size-1`, with `size`
empty part slots. -/
def newFragmentedResponse (size : Nat) : fragmentedResponse :=
  ⟨Finset.range size, List.replicate size []⟩

/-- `fragmentedResponse.add`: store the fragment body at its part index
and delete that index from the expected set. -/
def fragmentedResponse.add (fm : fragmentedResponse) (cr : commandResponse) :
    fragmentedResponse :=
  ⟨fm.expected.erase cr.multiIndex, fm.parts.set cr.multiIndex cr.msg⟩

/-- `fragmentedResponse.completed`: all parts have been added,
i.e. the expected map is empty. -/
def fragmentedResponse.completed (fm : fragmentedResponse) : Bool :=
  fm.expected.card = 0

/-- `fragmentedResponse.message`: the parts joined in index order
(`strings.Join(parts, "")`). -/
def fragmentedResponse.message (fm : fragmentedResponse) : List Nat :=
  fm.parts.flatten

/-! ## Receiver-side command handling and the sequence counter (client.go)

`handleCommandResponse` runs only on the receiver goroutine; the state it
touches is the `ctr` counter (a Go `uint64` read back as a byte through
`seq`) and the `fragments` map.  Delivery on the `cmds` channel is
modelled as the optional output of the step. -/

/-- The receiver-visible client state: the `ctr` counter (uint64) and the
`fragments` map keyed by sequence byte. -/
structure ClientState where
  ctr : Nat
  fragments : Nat → Option fragmentedResponse

/-- State of a fresh client: Go zero value counter and empty map. -/
def initialClient : ClientState :=
  ⟨0, fun _ => none⟩

/-- `Client.seq`: the counter truncated to a byte. -/
def ClientState.seq (c : ClientState) : Nat :=
  c.ctr % 256

/-- `Client.incr`: increment the uint64 counter (wrapping at 2^64). -/
def ClientState.incr (c : ClientState) : ClientState :=
  { c with ctr := (c.ctr + 1) % 2 ^ 64 }

/-- The fragment entry used for a reply: the stored one, or a fresh one
sized to the reply's multiSize when none is stored yet (the `ok` lookup
in `handleCommandResponse`). -/
def currentFragment (c : ClientState) (r : commandResponse) : fragmentedResponse :=
  match c.fragments r.seq with
  | some fr => fr
  | none => newFragmentedResponse r.multiSize

/-- `Client.handleCommandResponse`: drop replies whose sequence differs
from the current counter; deliver non-fragmented replies at once
(advancing the counter); store fragments, and deliver the reassembled
message when complete (advancing the counter).  The second component is
the message published on the `cmds` channel, if any. -/
def handleCommandResponse (c : ClientState) (r : commandResponse) :
    ClientState × Option (List Nat) :=
  if r.seq ≠ c.seq then (c, none)
  else if r.multi = false then (c.incr, some r.msg)
  else
    let fr2 := (currentFragment c r).add r
    let c2 : ClientState := { c with fragments := Function.update c.fragments r.seq (some fr2) }
    if fr2.completed then (c2.incr, some fr2.message) else (c2, none)

/-- Run the receiver handler over a trace of decoded command responses,
collecting the messages delivered on the `cmds` channel. -/
def runClient : ClientState → List commandResponse → ClientState × List (List Nat)
  | c, [] => (c, [])
  | c, r :: rs =>
    let step := handleCommandResponse c r
    let rest := runClient step.1 rs
    (rest.1, step.2.toList ++ rest.2)

/-! ## Client construction options (client_config_options.go / client.go) -/

/-- Client configuration fields set during `NewClient` (durations in
nanoseconds, as Go `time.Duration` counts them). -/
structure Config where
  timeout : Int
  keepAlive : Int
  msgBufSize : Int
deriving DecidableEq, Repr

/-- Defaults installed by `NewClient` before options run. -/
def defaultConfig : Config :=
  ⟨10 * 1000000000, 30 * 1000000000, 100⟩

/-- An `Option` value passed to `NewClient`; Go nil is `none`. -/
def ClientOption : Type :=
  Option (Config → Except BEError Config)

/-- The `Timeout` option. -/
def Timeout (timeout : Int) : ClientOption :=
  some fun c => .ok { c with timeout := timeout }

/-- The `KeepAlive` option. -/
def KeepAlive (interval : Int) : ClientOption :=
  some fun c => .ok { c with keepAlive := interval }

/-- The `MessageBuffer` option: sizes below 1 fail with
ErrInvalidMessageBufferSize. -/
def MessageBuffer (size : Int) : ClientOption :=
  some fun c =>
    if size < 1 then .error .invalidMessageBufferSize
    else .ok { c with msgBufSize := size }

/-- The option loop of `NewClient`: a nil option fails with ErrNilOption,
a failing option aborts construction with its error. -/
def applyOptions : List ClientOption → Config → Except BEError Config
  | [], c => .ok c
  | none :: _, _ => .error .nilOption
  | some f :: rest, c =>
    match f c with
    | .error e => .error e
    | .ok c2 => applyOptions rest c2

/-- Configuration phase of `NewClient`: apply the options to the default
config.  On error no client is created; on success the `msgs` channel is
allocated with capacity `msgBufSize`. -/
def newClientConfig (opts : List ClientOption) : Except BEError Config :=
  applyOptions opts defaultConfig

/-! ## Close lifecycle (client.go / done.go)

`Client.Close` checks the done flag, marks done, waits for the
goroutines, closes the `msgs` channel and calls `conn.Close`.  The model
records the Go runtime panics reachable from this sequential code:
closing an already-closed channel, and calling `Close` on a nil `conn`
interface (the state `NewClient` is in when `net.Dial` failed). -/

/-- The lifecycle state `Close` reads and writes: whether `done.Done()`
has run, whether the `msgs` channel is closed, and whether the UDP
association exists (`none` models the nil `conn` left by a failed
`net.Dial`). -/
structure LifecycleState where
  doneDone : Bool
  msgsClosed : Bool
  conn : Option Unit
deriving DecidableEq, Repr

/-- Outcome of a `Close` call: a normal return with its error value, or a
Go runtime panic. -/
inductive CloseOutcome where
  | ok (err : Option BEError)
  | panic
deriving DecidableEq, Repr

/-- `Client.Close`: no-op when already done; otherwise mark done, close
the `msgs` channel (a second close would panic) and call `conn.Close`
(a nil conn panics; a live UDP conn close returns nil). -/
def goClose (s : LifecycleState) : LifecycleState × CloseOutcome :=
  if s.doneDone then (s, .ok none)
  else
    let s1 : LifecycleState := { s with doneDone := true }
    if s1.msgsClosed then (s1, .panic)
    else
      let s2 : LifecycleState := { s1 with msgsClosed := true }
      match s2.conn with
      | none => (s2, .panic)
      | some _ => (s2, .ok none)

/-- Sanity check of the crc32 embedding against the standard test vector
for the bytes of the digit string 123456789. -/
theorem crc32_check_vector :
    crc32 [49, 50, 51, 52, 53, 54, 55, 56, 57] = 0xCBF43926 := by decide

/-- Sanity check against the repository's own parser test: the successful
login response datagram from TestResponseParser carries checksum bytes
0x69 0xdd 0xde 0x36 for payload 0xFF 0x00 0x01. -/
theorem crc32_parser_test_vector :
    crc32 [0xFF, 0x00, 0x01] = leUint32 [0x69, 0xdd, 0xde, 0x36] := by decide

/-! ## Helper lemmas -/

lemma crc32Bit_lt (c : Nat) (h : c < 2 ^ 32) : crc32Bit c < 2 ^ 32 := by
  unfold crc32Bit
  have hs : c >>> 1 < 2 ^ 32 := by
    rw [Nat.shiftRight_eq_div_pow]
    omega
  split
  · exact Nat.xor_lt_two_pow hs (by norm_num)
  · exact hs

lemma crc32Bit_iter_lt : ∀ (n : Nat) (c : Nat), c < 2 ^ 32 → crc32Bit^[n] c < 2 ^ 32
  | 0, _, h => h
  | n + 1, c, h => by
    rw [Function.iterate_succ_apply]
    exact crc32Bit_iter_lt n _ (crc32Bit_lt c h)

lemma crc32Update_lt (crc b : Nat) (h : crc < 2 ^ 32) : crc32Update crc b < 2 ^ 32 := by
  unfold crc32Update
  exact crc32Bit_iter_lt 8 _ (Nat.xor_lt_two_pow h (by
    have : b % 256 < 256 := Nat.mod_lt _ (by norm_num)
    omega))

lemma crc32_foldl_lt (data : List Nat) :
    ∀ crc : Nat, crc < 2 ^ 32 → data.foldl crc32Update crc < 2 ^ 32 := by
  induction data with
  | nil => exact fun _ h => h
  | cons b rest ih =>
    intro crc h
    exact ih _ (crc32Update_lt crc b h)

/-- The checksum is a 32-bit value. -/
lemma crc32_lt (data : List Nat) : crc32 data < 2 ^ 32 := by
  unfold crc32
  exact Nat.xor_lt_two_pow (crc32_foldl_lt data _ (by norm_num)) (by norm_num)

/-- Reading back the four little-endian bytes of a 32-bit value recovers it,
also when further payload bytes follow. -/
lemma leUint32_leBytes (v : Nat) (hv : v < 2 ^ 32) (rest : List Nat) :
    leUint32 (leBytes v ++ rest) = v := by
  simp only [leUint32, leBytes, List.cons_append, List.nil_append,
    List.getD_cons_zero, List.getD_cons_succ]
  rw [Nat.shiftRight_eq_div_pow, Nat.shiftRight_eq_div_pow, Nat.shiftRight_eq_div_pow]
  omega

/-! ## Claim C3 — decode validation order -/

/-- Claim C3: `parseResponse` performs its validation checks in the stated
order, each failure yielding its distinct error: length below 9 gives
InvalidPacketSize; else a first-two-byte mismatch with 0x42 0x45 gives
InvalidHeader; else byte 6 differing from 0xFF gives InvalidEndOfHeader;
else a CRC32 mismatch with the little-endian u32 at bytes 2..6 gives
InvalidChecksum; else an unknown type at byte 7 gives UnknownPacketType. -/
theorem parse_validation_order :
    (∀ raw : List Nat, raw.length < 9 → parseResponse raw = .err .invalidPacketSize)
  ∧ (∀ raw : List Nat, 9 ≤ raw.length →
      ¬(raw.getD 0 0 = 0x42 ∧ raw.getD 1 0 = 0x45) →
      parseResponse raw = .err .invalidHeader)
  ∧ (∀ raw : List Nat, 9 ≤ raw.length →
      raw.getD 0 0 = 0x42 → raw.getD 1 0 = 0x45 →
      raw.getD 6 0 ≠ 0xFF →
      parseResponse raw = .err .invalidEndOfHeader)
  ∧ (∀ raw : List Nat, 9 ≤ raw.length →
      raw.getD 0 0 = 0x42 → raw.getD 1 0 = 0x45 →
      raw.getD 6 0 = 0xFF →
      crc32 (raw.drop 6) ≠ leUint32 (raw.drop 2) →
      parseResponse raw = .err .invalidChecksum)
  ∧ (∀ raw : List Nat, 9 ≤ raw.length →
      raw.getD 0 0 = 0x42 → raw.getD 1 0 = 0x45 →
      raw.getD 6 0 = 0xFF →
      crc32 (raw.drop 6) = leUint32 (raw.drop 2) →
      ¬(raw.getD 7 0 = 0 ∨ raw.getD 7 0 = 1 ∨ raw.getD 7 0 = 2) →
      parseResponse raw = .err .unknownPacketType) := by
  refine ⟨?_, ?_, ?_, ?_, ?_⟩
  · intro raw h
    rw [parseResponse, if_pos h]
  · intro raw h9 hh
    rw [parseResponse, if_neg (by omega), if_pos hh]
  · intro raw h9 h42 h45 he
    rw [parseResponse, if_neg (by omega), if_neg (not_not_intro ⟨h42, h45⟩), if_pos he]
  · intro raw h9 h42 h45 he hc
    rw [parseResponse, if_neg (by omega), if_neg (not_not_intro ⟨h42, h45⟩),
      if_neg (not_not_intro he), if_pos hc]
  · intro raw h9 h42 h45 he hc ht
    rw [parseResponse, if_neg (by omega), if_neg (not_not_intro ⟨h42, h45⟩),
      if_neg (not_not_intro he), if_neg (not_not_intro hc)]
    rcases h7 : raw.getD 7 0 with _ | _ | _ | n
    · exact absurd (Or.inl h7) ht
    · exact absurd (Or.inr (Or.inl h7)) ht
    · exact absurd (Or.inr (Or.inr h7)) ht
    · rfl

/-- Witness for C3: the five error branches hit at the concrete datagrams
of the repository's TestResponseParser table. -/
theorem parse_validation_order_witness :
    parseResponse [0, 0, 0, 0, 0, 0, 0, 0] = .err .invalidPacketSize
  ∧ parseResponse [0x47, 0x47, 0, 0, 0, 0, 0, 0, 0] = .err .invalidHeader
  ∧ parseResponse [0x42, 0x45, 0x12, 0xd9, 0x41, 0xff, 0, 0, 0] = .err .invalidEndOfHeader
  ∧ parseResponse [0x42, 0x45, 0, 0x23, 0, 0x85, 0xff, 0, 0] = .err .invalidChecksum
  ∧ parseResponse [0x42, 0x45, 0xba, 0x19, 0xae, 0x3c, 0xff, 0x05, 0] = .err .unknownPacketType :=
  ⟨parse_validation_order.1 _ (by decide),
   parse_validation_order.2.1 _ (by decide) (by decide),
   parse_validation_order.2.2.1 _ (by decide) (by decide) (by decide) (by decide),
   parse_validation_order.2.2.2.1 _ (by decide) (by decide) (by decide) (by decide) (by decide),
   parse_validation_order.2.2.2.2 _ (by decide) (by decide) (by decide) (by decide)
     (by decide) (by decide)⟩

/-! ## Claim C4 — corrupted checksum -/

/-- Counterexample for C4 as frozen: the nine-zero byte string has a
stored CRC field (zero) that differs from the CRC32 of its payload, yet
`parseResponse` returns InvalidHeader, not InvalidChecksum, because the
header check runs first. -/
theorem corrupted_crc_counterexample :
    crc32 [0, 0, 0] ≠ leUint32 [0, 0, 0, 0, 0, 0, 0]
  ∧ parseResponse [0, 0, 0, 0, 0, 0, 0, 0, 0] = .err .invalidHeader
  ∧ parseResponse [0, 0, 0, 0, 0, 0, 0, 0, 0] ≠ .err .invalidChecksum := by
  refine ⟨by decide, by decide, by decide⟩

/-- Claim C4 (amended): every byte string that passes the preceding
checks (length at least 9, 0x42 0x45 header, 0xFF end-of-header) and
whose stored CRC32 field differs from the CRC32 over its payload decodes
to InvalidChecksum. -/
theorem corrupted_crc_rejected (raw : List Nat) (h9 : 9 ≤ raw.length)
    (h42 : raw.getD 0 0 = 0x42) (h45 : raw.getD 1 0 = 0x45)
    (he : raw.getD 6 0 = 0xFF)
    (hc : crc32 (raw.drop 6) ≠ leUint32 (raw.drop 2)) :
    parseResponse raw = .err .invalidChecksum := by
  rw [parseResponse, if_neg (by omega), if_neg (not_not_intro ⟨h42, h45⟩),
    if_neg (not_not_intro he), if_pos hc]

/-- Witness for C4: a well-framed datagram whose CRC field 0x01020304 does
not match its payload. -/
theorem corrupted_crc_rejected_witness :
    parseResponse [0x42, 0x45, 4, 3, 2, 1, 0xff, 1, 7] = .err .invalidChecksum :=
  corrupted_crc_rejected _ (by decide) (by decide) (by decide) (by decide) (by decide)

/-! ## Claim C1 — encode/decode roundtrip -/

/-- A 32-bit value is recovered from its four little-endian bytes written
in front of the payload. -/
lemma leUint32_cons (v : Nat) (hv : v < 2 ^ 32) (rest : List Nat) :
    leUint32 (v % 256 :: (v >>> 8) % 256 :: (v >>> 16) % 256 :: (v >>> 24) % 256 :: rest)
      = v := by
  simp only [leUint32, List.getD_cons_zero, List.getD_cons_succ]
  rw [Nat.shiftRight_eq_div_pow, Nat.shiftRight_eq_div_pow, Nat.shiftRight_eq_div_pow]
  omega

lemma getD_cons_0 (x0 : Nat) (l : List Nat) : (x0 :: l).getD 0 0 = x0 := rfl

lemma getD_cons_1 (x0 x1 : Nat) (l : List Nat) : (x0 :: x1 :: l).getD 1 0 = x1 := rfl

lemma getD_cons_6 (x0 x1 x2 x3 x4 x5 x6 : Nat) (l : List Nat) :
    (x0 :: x1 :: x2 :: x3 :: x4 :: x5 :: x6 :: l).getD 6 0 = x6 := rfl

lemma getD_cons_7 (x0 x1 x2 x3 x4 x5 x6 x7 : Nat) (l : List Nat) :
    (x0 :: x1 :: x2 :: x3 :: x4 :: x5 :: x6 :: x7 :: l).getD 7 0 = x7 := rfl

lemma drop_cons_2 (x0 x1 : Nat) (l : List Nat) : List.drop 2 (x0 :: x1 :: l) = l := rfl

lemma drop_cons_6 (x0 x1 x2 x3 x4 x5 : Nat) (l : List Nat) :
    List.drop 6 (x0 :: x1 :: x2 :: x3 :: x4 :: x5 :: l) = l := rfl

lemma drop_cons_8 (x0 x1 x2 x3 x4 x5 x6 x7 : Nat) (l : List Nat) :
    List.drop 8 (x0 :: x1 :: x2 :: x3 :: x4 :: x5 :: x6 :: x7 :: l) = l := rfl

/-- Decoding any encoded frame passes all validation (the stored CRC is
the CRC of the payload by construction) and dispatches on the type byte. -/
lemma parseResponse_frame (a b : Nat) (tail : List Nat) :
    parseResponse (packet.header (0xFF :: a :: b :: tail) ++ (0xFF :: a :: b :: tail))
      = (match a with
        | 0 => loginResponse (b :: tail)
        | 1 => newCommandResponse (b :: tail)
        | 2 => newServerMessage (b :: tail)
        | _ => .err .unknownPacketType) := by
  have hc := crc32_lt (0xFF :: a :: b :: tail)
  simp only [packet.header, leBytes, List.cons_append, List.nil_append]
  rw [parseResponse]
  simp only [getD_cons_0, getD_cons_1, getD_cons_6, getD_cons_7, drop_cons_2, drop_cons_6,
    drop_cons_8, List.length_cons]
  rw [if_neg (by omega)]
  rw [if_neg (by simp)]
  rw [if_neg (by simp)]
  rw [if_neg (not_not_intro (leUint32_cons _ hc _).symm)]

/-- A command response body whose second byte is not the multi-packet
marker parses as a plain (non multi) response. -/
lemma newCommandResponse_cons_ne (seq m0 : Nat) (ms : List Nat) (h : ¬m0 = 0) :
    newCommandResponse (seq :: m0 :: ms) = .ok (.command ⟨m0 :: ms, seq, 0, 0, false⟩) := by
  rcases ms with _ | ⟨a, _ | ⟨b, cs⟩⟩ <;> simp [newCommandResponse, h]

/-- Counterexample for C1 as frozen: for the login packet carrying the
one-byte password 0x73 (the letter s), decoding the encoding does not
yield back the packet — it fails with ErrInvalidLoginResponse, because
`parseResponse` reads a login payload as a login response byte. -/
theorem roundtrip_counterexample :
    (newLoginPacket [0x73]).bytes.map parseResponse = .ok (.err .invalidLoginResponse) := by
  rfl

/-- Claim C1 (amended): decode inverts encode on the server-to-client
packet shapes `parseResponse` is built for — a command packet whose
message is empty or does not begin with the 0x00 multi-packet marker
decodes to a command response with the same sequence and message; a
server-message acknowledge packet decodes to a server message with the
same sequence and empty body; a login packet whose message is the single
status byte 0 or 1 decodes to the corresponding login outcome.  (For
other login packets decoding errors, as the counterexample shows, and a
command message beginning with 0x00 is re-parsed as a multi-part
header.) -/
theorem roundtrip_amended :
    (∀ (s : Nat) (msg : List Nat), msg = [] ∨ msg.headD 0 ≠ 0 →
      (newCommandPacket msg s).bytes.map parseResponse
        = .ok (.ok (.command ⟨msg, s, 0, 0, false⟩)))
  ∧ (∀ s : Nat,
      (newServerMessageAcknowledgePacket s).bytes.map parseResponse
        = .ok (.ok (.server ⟨s, []⟩)))
  ∧ (∀ b : Nat, b = 0 ∨ b = 1 →
      (newLoginPacket [b]).bytes.map parseResponse
        = .ok (.ok (.login (b == 1)))) := by
  refine ⟨?_, ?_, ?_⟩
  · intro s msg hmsg
    show Except.ok (parseResponse
        (packet.header (0xFF :: 1 :: s :: msg) ++ (0xFF :: 1 :: s :: msg)))
      = Except.ok (.ok (.command ⟨msg, s, 0, 0, false⟩))
    rw [parseResponse_frame]
    rcases hmsg with rfl | hhead
    · rfl
    · have hne : msg ≠ [] := by
        rintro rfl
        exact hhead rfl
      obtain ⟨m0, ms, rfl⟩ := List.exists_cons_of_ne_nil hne
      have hm0 : ¬m0 = 0 := by simpa using hhead
      show Except.ok (newCommandResponse (s :: m0 :: ms)) = _
      rw [newCommandResponse_cons_ne _ _ _ hm0]
  · intro s
    show Except.ok (parseResponse
        (packet.header (0xFF :: 2 :: s :: []) ++ (0xFF :: 2 :: s :: [])))
      = Except.ok (.ok (.server ⟨s, []⟩))
    rw [parseResponse_frame]
    rfl
  · intro b hb
    show Except.ok (parseResponse
        (packet.header (0xFF :: 0 :: b :: []) ++ (0xFF :: 0 :: b :: [])))
      = Except.ok (.ok (.login (b == 1)))
    rw [parseResponse_frame]
    rcases hb with rfl | rfl <;> rfl

/-- Witness for C1: a concrete command packet, server-message ack and
successful-login packet each roundtrip. -/
theorem roundtrip_amended_witness :
    (newCommandPacket [104, 105] 3).bytes.map parseResponse
      = .ok (.ok (.command ⟨[104, 105], 3, 0, 0, false⟩))
  ∧ (newServerMessageAcknowledgePacket 9).bytes.map parseResponse
      = .ok (.ok (.server ⟨9, []⟩))
  ∧ (newLoginPacket [1]).bytes.map parseResponse = .ok (.ok (.login true)) :=
  ⟨roundtrip_amended.1 3 [104, 105] (Or.inr (by decide)),
   roundtrip_amended.2.1 9,
   roundtrip_amended.2.2 1 (Or.inr rfl)⟩

/-! ## Claim C7 — duplicate fragments -/

/-- Claim C7: adding a duplicate fragment (same part index as one already
stored) overwrites the slot with the new body but leaves the missing set,
hence the completion status and the missing count, unchanged. -/
theorem duplicate_fragment_add (fm : fragmentedResponse) (cr cr2 : commandResponse)
    (hidx : cr2.multiIndex = cr.multiIndex) (hlen : cr.multiIndex < fm.parts.length) :
    ((fm.add cr).add cr2).expected = (fm.add cr).expected
  ∧ ((fm.add cr).add cr2).parts = ((fm.add cr).parts).set cr2.multiIndex cr2.msg
  ∧ ((fm.add cr).add cr2).parts.getD cr2.multiIndex [] = cr2.msg
  ∧ ((fm.add cr).add cr2).completed = (fm.add cr).completed
  ∧ ((fm.add cr).add cr2).expected.card = (fm.add cr).expected.card := by
  have he : ((fm.add cr).add cr2).expected = (fm.add cr).expected := by
    simp only [fragmentedResponse.add, hidx, Finset.erase_idem]
  refine ⟨he, rfl, ?_, ?_, by rw [he]⟩
  · simp only [fragmentedResponse.add, List.getD_eq_getElem?_getD]
    rw [List.getElem?_set_self (by simpa [hidx] using hlen)]
    rfl
  · simp only [fragmentedResponse.completed, he]

/-- Witness for C7: duplicate add of index 1 on a two-part entry. -/
theorem duplicate_fragment_add_witness :
    ((fragmentedResponse.add
        (fragmentedResponse.add ⟨Finset.range 2, [[1], [2]]⟩ ⟨[9], 0, 2, 1, true⟩)
        ⟨[7], 0, 2, 1, true⟩).expected
      = (fragmentedResponse.add ⟨Finset.range 2, [[1], [2]]⟩ ⟨[9], 0, 2, 1, true⟩).expected)
  ∧ ((fragmentedResponse.add
        (fragmentedResponse.add ⟨Finset.range 2, [[1], [2]]⟩ ⟨[9], 0, 2, 1, true⟩)
        ⟨[7], 0, 2, 1, true⟩).parts
      = ((fragmentedResponse.add ⟨Finset.range 2, [[1], [2]]⟩ ⟨[9], 0, 2, 1, true⟩).parts).set 1 [7])
  ∧ ((fragmentedResponse.add
        (fragmentedResponse.add ⟨Finset.range 2, [[1], [2]]⟩ ⟨[9], 0, 2, 1, true⟩)
        ⟨[7], 0, 2, 1, true⟩).parts.getD 1 [] = [7])
  ∧ ((fragmentedResponse.add
        (fragmentedResponse.add ⟨Finset.range 2, [[1], [2]]⟩ ⟨[9], 0, 2, 1, true⟩)
        ⟨[7], 0, 2, 1, true⟩).completed
      = (fragmentedResponse.add ⟨Finset.range 2, [[1], [2]]⟩ ⟨[9], 0, 2, 1, true⟩).completed)
  ∧ ((fragmentedResponse.add
        (fragmentedResponse.add ⟨Finset.range 2, [[1], [2]]⟩ ⟨[9], 0, 2, 1, true⟩)
        ⟨[7], 0, 2, 1, true⟩).expected.card
      = (fragmentedResponse.add ⟨Finset.range 2, [[1], [2]]⟩ ⟨[9], 0, 2, 1, true⟩).expected.card) :=
  duplicate_fragment_add ⟨Finset.range 2, [[1], [2]]⟩ ⟨[9], 0, 2, 1, true⟩ ⟨[7], 0, 2, 1, true⟩
    rfl (by decide)

/-! ## Claim C6 — stale replies dropped -/

/-- Claim C6: a decoded command reply whose sequence differs from the
current counter value is dropped silently — the client state (counter and
fragment map) is returned unchanged and nothing is published on the
reply channel. -/
theorem stale_reply_dropped (c : ClientState) (r : commandResponse)
    (h : r.seq ≠ c.seq) :
    handleCommandResponse c r = (c, none) := by
  rw [handleCommandResponse, if_pos h]

/-- Witness for C6: a reply with sequence 5 against a fresh client
(counter 0) is dropped. -/
theorem stale_reply_dropped_witness :
    handleCommandResponse initialClient ⟨[], 5, 0, 0, false⟩ = (initialClient, none) :=
  stale_reply_dropped initialClient ⟨[], 5, 0, 0, false⟩ (by decide)

/-! ## Claim C8 — Close lifecycle -/

/-- Claim C8 (code bug record): the Close model evaluated on the two
relevant states.  Closing a client whose `net.Dial` failed (nil `conn`,
the state `NewClient` calls `Close` from when dialing errors) panics on
the nil connection, contradicting the claim that closing a
never-completely-opened client neither panics nor errors; while the
claimed double-close behaviour does hold: a second `Close` on an opened
then closed client is a no-op returning nil. -/
theorem close_model_behaviour :
    (goClose ⟨false, false, none⟩).2 = .panic
  ∧ (goClose ⟨false, false, some ()⟩).2 = .ok none
  ∧ goClose (goClose ⟨false, false, some ()⟩).1 = ((goClose ⟨false, false, some ()⟩).1, .ok none)
  ∧ (goClose ⟨true, false, some ()⟩).2 = .ok none := by
  refine ⟨rfl, rfl, rfl, rfl⟩

/-! ## Claim C9 — MessageBuffer option -/

/-- Claim C9: constructing with `MessageBuffer size` and `size < 1` fails
with InvalidMessageBufferSize (no client is created); with `size ≥ 1` the
broadcast queue capacity is set to `size`; without the option it stays at
the default 100. -/
theorem messageBuffer_option (size : Int) :
    (size < 1 →
      newClientConfig [MessageBuffer size] = .error .invalidMessageBufferSize)
  ∧ (1 ≤ size →
      newClientConfig [MessageBuffer size] = .ok { defaultConfig with msgBufSize := size })
  ∧ newClientConfig [] = .ok defaultConfig
  ∧ defaultConfig.msgBufSize = 100 := by
  refine ⟨?_, ?_, rfl, rfl⟩
  · intro h
    simp only [newClientConfig, MessageBuffer, applyOptions, if_pos h]
  · intro h
    simp only [newClientConfig, MessageBuffer, applyOptions, if_neg (by omega : ¬size < 1)]

/-- Witness for C9: size 0 is rejected, size 500 is installed. -/
theorem messageBuffer_option_witness :
    newClientConfig [MessageBuffer 0] = .error .invalidMessageBufferSize
  ∧ newClientConfig [MessageBuffer 500] = .ok { defaultConfig with msgBufSize := 500 } :=
  ⟨(messageBuffer_option 0).1 (by decide), (messageBuffer_option 500).2.1 (by decide)⟩

/-! ## Claim C2 — order-independent reassembly -/

/-- Feeding part `i` of a fixed reply (sequence `s`, `k` parts, part `i`
carrying body `body i`) to the reassembler. -/
def addPart (body : Nat → List Nat) (s k : Nat) (fm : fragmentedResponse) (i : Nat) :
    fragmentedResponse :=
  fm.add ⟨body i, s, k, i, true⟩

/-- After any sequence of adds the expected set is the initial one minus
the added indices. -/
lemma foldl_add_expected (rs : List commandResponse) (fm : fragmentedResponse) :
    (rs.foldl (fun fm r => fm.add r) fm).expected
      = fm.expected \ (rs.map commandResponse.multiIndex).toFinset := by
  induction rs generalizing fm with
  | nil => simp
  | cons r rs ih =>
    rw [List.foldl_cons, ih]
    ext x
    simp only [fragmentedResponse.add, List.map_cons, List.toFinset_cons, Finset.mem_sdiff,
      Finset.mem_erase, Finset.mem_insert, List.mem_toFinset]
    tauto

/-- Adds never change the number of part slots. -/
lemma foldl_addPart_parts_length (body : Nat → List Nat) (s k : Nat) (l : List Nat)
    (fm : fragmentedResponse) :
    (l.foldl (addPart body s k) fm).parts.length = fm.parts.length := by
  induction l generalizing fm with
  | nil => rfl
  | cons i l ih =>
    rw [List.foldl_cons, ih]
    simp [addPart, fragmentedResponse.add]

/-- Pointwise contents of the part slots after feeding the fragments
with indices `l`: an in-range slot whose index was fed holds its body,
every other slot is untouched. -/
lemma foldl_addPart_parts (body : Nat → List Nat) (s k : Nat) (l : List Nat)
    (fm : fragmentedResponse) (j : Nat) :
    ((l.foldl (addPart body s k) fm).parts)[j]? =
      if j ∈ l ∧ j < fm.parts.length then some (body j) else fm.parts[j]? := by
  induction l generalizing fm with
  | nil => simp
  | cons i l ih =>
    rw [List.foldl_cons, ih]
    simp only [addPart, fragmentedResponse.add, List.length_set]
    by_cases hl : j ∈ l ∧ j < fm.parts.length
    · rw [if_pos hl, if_pos ⟨List.mem_cons_of_mem i hl.1, hl.2⟩]
    · rw [if_neg hl]
      by_cases hji : j = i
      · subst hji
        by_cases hlen : j < fm.parts.length
        · rw [List.getElem?_set_self hlen, if_pos ⟨List.mem_cons_self j l, hlen⟩]
        · rw [if_neg (fun h => hlen h.2),
            List.getElem?_eq_none (by simp only [List.length_set]; omega),
            List.getElem?_eq_none (by omega)]
      · rw [List.getElem?_set_ne (fun h => hji h.symm)]
        rw [if_neg ?hcond]
        case hcond =>
          rintro ⟨hmem, hlt⟩
          rcases List.mem_cons.mp hmem with h1 | h2
          · exact hji h1
          · exact hl ⟨h2, hlt⟩

/-- Claim C2: feeding the `k` fragments of a multi-part reply to the
reassembler in any arrival order completes it and yields the
concatenation of the bodies in canonical index order; completion holds
exactly when the missing set is empty, and the missing set never exceeds
`total_parts` under any sequence of adds. -/
theorem reassembly_order_independent (k s : Nat) (body : Nat → List Nat)
    (order : List Nat) (hperm : order.Perm (List.range k)) :
    (order.foldl (addPart body s k) (newFragmentedResponse k)).completed = true
  ∧ (order.foldl (addPart body s k) (newFragmentedResponse k)).message
      = ((List.range k).map body).flatten
  ∧ (∀ fm : fragmentedResponse, fm.completed = true ↔ fm.expected = ∅)
  ∧ (∀ rs : List commandResponse,
      (rs.foldl (fun fm r => fm.add r) (newFragmentedResponse k)).expected.card ≤ k) := by
  have hexp : (order.foldl (addPart body s k) (newFragmentedResponse k)).expected = ∅ := by
    have h1 : order.foldl (addPart body s k) (newFragmentedResponse k)
        = (order.map (fun i => (⟨body i, s, k, i, true⟩ : commandResponse))).foldl
            (fun fm r => fm.add r) (newFragmentedResponse k) := by
      rw [List.foldl_map]
      rfl
    have h2 : ((order.map fun i => (⟨body i, s, k, i, true⟩ : commandResponse)).map
        commandResponse.multiIndex) = order := by
      rw [List.map_map]
      exact List.map_id order
    rw [h1, foldl_add_expected, h2, newFragmentedResponse]
    ext x
    simp only [Finset.mem_sdiff, Finset.mem_range, List.mem_toFinset, Finset.not_mem_empty,
      iff_false, not_and, not_not]
    intro hx
    exact hperm.mem_iff.2 (List.mem_range.2 hx)
  have hparts : (order.foldl (addPart body s k) (newFragmentedResponse k)).parts
      = (List.range k).map body := by
    apply List.ext_getElem?
    intro j
    rw [foldl_addPart_parts, List.getElem?_map]
    by_cases hj : j < k
    · rw [if_pos ⟨hperm.mem_iff.2 (List.mem_range.2 hj),
        by simp [newFragmentedResponse, hj]⟩]
      rw [List.getElem?_range hj]
      rfl
    · rw [if_neg (fun h => hj (by simpa [newFragmentedResponse] using h.2))]
      rw [List.getElem?_eq_none (by simp [newFragmentedResponse]; omega),
        List.getElem?_eq_none (by simp [List.length_range]; omega)]
      rfl
  refine ⟨?_, ?_, ?_, ?_⟩
  · simp [fragmentedResponse.completed, hexp]
  · rw [fragmentedResponse.message, hparts]
  · intro fm
    simp [fragmentedResponse.completed, Finset.card_eq_zero]
  · intro rs
    rw [foldl_add_expected]
    calc ((newFragmentedResponse k).expected \ _).card
        ≤ (newFragmentedResponse k).expected.card :=
          Finset.card_le_card (Finset.sdiff_subset)
      _ = k := by simp [newFragmentedResponse]

/-- Witness for C2: the two fragments of a two-part reply fed in reverse
order reassemble to the bodies in index order. -/
theorem reassembly_order_independent_witness :
    ([1, 0].foldl (addPart (fun i => [i + 10]) 0 2) (newFragmentedResponse 2)).completed = true
  ∧ ([1, 0].foldl (addPart (fun i => [i + 10]) 0 2) (newFragmentedResponse 2)).message
      = ((List.range 2).map (fun i => [i + 10])).flatten := by
  have hperm : ([1, 0] : List Nat).Perm (List.range 2) := by
    have h : List.range 2 = [0, 1] := rfl
    rw [h]
    exact List.Perm.swap 0 1 []
  exact ⟨(reassembly_order_independent 2 0 (fun i => [i + 10]) [1, 0] hperm).1,
    (reassembly_order_independent 2 0 (fun i => [i + 10]) [1, 0] hperm).2.1⟩

/-! ## Claim C5 — sequence counter -/

/-- The counter after one receiver step: unchanged when nothing is
delivered, incremented (mod 2^64) when a reply is delivered. -/
lemma handle_ctr (c : ClientState) (r : commandResponse) :
    (handleCommandResponse c r).1.ctr
      = if (handleCommandResponse c r).2 = none then c.ctr
        else (c.ctr + 1) % 2 ^ 64 := by
  unfold handleCommandResponse
  by_cases h1 : r.seq ≠ c.seq
  · simp [h1]
  · by_cases h2 : r.multi = false
    · simp [h1, h2, ClientState.incr]
    · by_cases h3 : ((currentFragment c r).add r).completed
      · simp [h1, h2, h3, ClientState.incr]
      · simp [h1, h2, h3]

/-- Over a whole trace the counter equals the initial value plus the
number of delivered replies, mod 2^64. -/
lemma runClient_ctr (rs : List commandResponse) :
    ∀ c : ClientState, c.ctr < 2 ^ 64 →
      (runClient c rs).1.ctr = (c.ctr + (runClient c rs).2.length) % 2 ^ 64 := by
  induction rs with
  | nil =>
    intro c h
    simp only [runClient, List.length_nil, Nat.add_zero]
    omega
  | cons r rs ih =>
    intro c h
    have hc := handle_ctr c r
    cases hout : (handleCommandResponse c r).2 with
    | none =>
      rw [hout, if_pos rfl] at hc
      have hrec := ih (handleCommandResponse c r).1 (by rw [hc]; exact h)
      simp only [runClient, hout, Option.toList_none, List.nil_append, hrec, hc]
    | some m =>
      rw [hout, if_neg (by simp)] at hc
      have hlt : (handleCommandResponse c r).1.ctr < 2 ^ 64 := by
        rw [hc]
        exact Nat.mod_lt _ (by norm_num)
      have hrec := ih (handleCommandResponse c r).1 hlt
      simp only [runClient, hout, Option.toList_some, List.cons_append, List.nil_append,
        List.length_cons, hrec, hc, Nat.mod_add_mod]
      congr 1
      omega

/-- Claim C5: from a fresh client the counter equals the number of
delivered replies mod 2^64, so the exposed sequence value equals that
number mod 256; and a single receiver step advances the counter exactly
when it delivers a complete reply — never on a dropped or partial
response. -/
theorem sequence_counter_correct :
    (∀ trace : List commandResponse,
        (runClient initialClient trace).1.ctr
            = (runClient initialClient trace).2.length % 2 ^ 64
      ∧ (runClient initialClient trace).1.seq
            = (runClient initialClient trace).2.length % 256)
  ∧ (∀ (c : ClientState) (r : commandResponse),
        ((handleCommandResponse c r).2 = none →
          (handleCommandResponse c r).1.ctr = c.ctr)
      ∧ ((handleCommandResponse c r).2 ≠ none →
          (handleCommandResponse c r).1.ctr = (c.ctr + 1) % 2 ^ 64)) := by
  constructor
  · intro trace
    have h := runClient_ctr trace initialClient (by norm_num [initialClient])
    rw [show initialClient.ctr = 0 from rfl, Nat.zero_add] at h
    refine ⟨h, ?_⟩
    rw [ClientState.seq, h, Nat.mod_mod_of_dvd _ (by norm_num)]
  · intro c r
    have hc := handle_ctr c r
    constructor
    · intro h
      rwa [if_pos h] at hc
    · intro h
      rwa [if_neg h] at hc

/-- Witness for C5: a stale reply leaves the counter at 0, a delivered
reply advances it to 1. -/
theorem sequence_counter_correct_witness :
    (handleCommandResponse initialClient ⟨[], 4, 0, 0, false⟩).1.ctr = initialClient.ctr
  ∧ (handleCommandResponse initialClient ⟨[], 0, 0, 0, false⟩).1.ctr
      = (initialClient.ctr + 1) % 2 ^ 64 :=
  ⟨(sequence_counter_correct.2 initialClient ⟨[], 4, 0, 0, false⟩).1 (by decide),
   (sequence_counter_correct.2 initialClient ⟨[], 0, 0, 0, false⟩).2 (by decide)⟩

/-! ## Claim C10 — parseResponse totality -/

/-- Claim C10 (code bug record): two CRC-valid command datagrams whose
body after the sequence byte begins with 0x00 (the multi-packet marker)
but is shorter than the three-byte multi-part header make
`newCommandResponse` read `raw[2]` respectively `raw[3]` out of bounds —
a Go runtime panic, so `parseResponse` is not total. -/
theorem parse_short_multi_header_panics :
    parseResponse (0x42 :: 0x45 :: leBytes (crc32 [0xFF, 1, 7, 0]) ++ [0xFF, 1, 7, 0]) = .panic
  ∧ parseResponse (0x42 :: 0x45 :: leBytes (crc32 [0xFF, 1, 7, 0, 2]) ++ [0xFF, 1, 7, 0, 2])
      = .panic := by
  refine ⟨by decide, by decide⟩

end BattlEye
